import Mathlib

/-!
Shallow embedding of `src/lib/index.js` of strider-deconst-content.

The module orchestrates two things:
* `recursivelyPrepare` — walks the build workspace, prunes dot/build
  directories, prepares every directory holding a `_deconst.json` marker,
  and aggregates the per-root outcomes;
* `preparePullRequest` — an `async.series` pipeline of six stages
  (revision id, transient key issuance, preparation, key revocation,
  preview-URL resolution, GitHub notification).

External collaborators (the `walk` traversal primitive, `path.relative`,
`url-join`, the content-service / presenter / GitHub clients, the per-root
preparer in `lib/prepare.js` and the comment formatter in
`lib/comment.js`) are modelled as oracle parameters: the embedding takes
their replies as inputs and records every invocation in an effect trace.
-/

namespace StriderDeconst

/-- Modelled from the spec: `PrepareOutcome` is the result shape produced by
the external per-root preparer (`lib/prepare.js`, not part of the analysed
sources): `success`, `didSomething` and `contentIDBase`, exactly the three
fields `index.js` reads from `results`. -/
structure PrepareOutcome where
  success : Bool
  didSomething : Bool
  contentIDBase : String
deriving Repr, DecidableEq

/-- One invocation of `prepare.prepare` either calls back with an error or
with a `PrepareOutcome`. -/
inductive PrepResult where
  | err (msg : String)
  | ok (outcome : PrepareOutcome)
deriving Repr, DecidableEq

/-- The `opts` object handed to `recursivelyPrepare` and mutated in place
(`opts.contentRoot = root`) before every preparer call. -/
structure PrepareOpts where
  revisionID : String
  contentServiceURL : String
  contentServiceAPIKey : String
  contentRoot : Option String
deriving Repr, DecidableEq

/-- The mutable closure state of `recursivelyPrepare`: `atLeastOne`,
`allSuccessful`, `submittedSomething`, `contentIDMap`, plus the shared
`opts` object.  `prepareCalls` is instrumentation: it records the value of
`opts` at each `prepare.prepare` invocation, in order. -/
structure WalkState where
  atLeastOne : Bool
  allSuccessful : Bool
  submittedSomething : Bool
  contentIDMap : List (String × String)
  opts : PrepareOpts
  prepareCalls : List PrepareOpts
deriving Repr, DecidableEq

/-- JavaScript object property assignment `m[k] = v`: overwrite in place if
the key exists, otherwise append in insertion order. -/
def mapSet : List (String × String) → String → String → List (String × String)
  | [], k, v => [(k, v)]
  | p :: rest, k, v => if p.1 = k then (k, v) :: rest else p :: mapSet rest k v

/-- Key lookup in the association-list model of a JavaScript object. -/
def mapGet : List (String × String) → String → Option String
  | [], _ => none
  | p :: rest, k => if p.1 = k then some p.2 else mapGet rest k

/-- `stats.some((each) => each.name === '_deconst.json')` from the files
handler. -/
def hasMarker (stats : List String) : Bool :=
  stats.any (fun name => name = "_deconst.json")

/-- The `files` event handler of `recursivelyPrepare` (index.js lines
44–72): if the directory holds the `_deconst.json` marker, set
`opts.contentRoot`, invoke the preparer, and fold its outcome into the
closure state; otherwise continue unchanged.
`rel` stands for `path.relative(toolbelt.workspacePath(), root)` and
`preparer` for `prepare.prepare` (keyed by the content root, the only
`opts` field that varies across calls). -/
def filesHandler (rel : String → String) (preparer : String → PrepResult)
    (st : WalkState) (root : String) (stats : List String) : WalkState :=
  if hasMarker stats then
    let optsNow : PrepareOpts := { st.opts with contentRoot := some root }
    let st1 : WalkState :=
      { st with opts := optsNow, prepareCalls := st.prepareCalls ++ [optsNow] }
    match preparer root with
    | .err _ => { st1 with atLeastOne := true, allSuccessful := false }
    | .ok results =>
        let relativeRoot := rel root
        let st2 : WalkState :=
          { st1 with
              atLeastOne := true
              allSuccessful := st1.allSuccessful && results.success }
        if results.didSomething then
          { st2 with
              submittedSomething := true
              contentIDMap := mapSet st2.contentIDMap relativeRoot results.contentIDBase }
        else st2
  else st

/-- Initial closure state of one `recursivelyPrepare` run. -/
def initialWalkState (opts : PrepareOpts) : WalkState :=
  { atLeastOne := false
    allSuccessful := true
    submittedSomething := false
    contentIDMap := []
    opts := opts
    prepareCalls := [] }

/-- A `files` event as delivered by the `walk` collaborator: the visited
directory and the names of its immediate files. -/
abbrev WalkEvent := String × List String

/-- Fold the files handler over the walker's event sequence, starting from
an arbitrary closure state. -/
def runWalkFrom (rel : String → String) (preparer : String → PrepResult)
    (st : WalkState) (events : List WalkEvent) : WalkState :=
  events.foldl (fun st ev => filesHandler rel preparer st ev.1 ev.2) st

/-- The closure state after the whole walk. -/
def runWalk (rel : String → String) (preparer : String → PrepResult)
    (events : List WalkEvent) (opts : PrepareOpts) : WalkState :=
  runWalkFrom rel preparer (initialWalkState opts) events

/-- The aggregate delivered by `recursivelyPrepare` on success. -/
structure AggregateResult where
  didSomething : Bool
  submittedSomething : Bool
  contentIDMap : List (String × String)
deriving Repr, DecidableEq

/-- The `end` event handler (index.js lines 82–99): once the walk has
completed, report a single error if any preparer failed, else deliver the
aggregate.  The error value carries no aggregate (the source passes the
bare sentinel `true` as second argument alongside the `Error`). -/
def endHandler (st : WalkState) : Except String AggregateResult :=
  if !st.allSuccessful then
    .error "At least one preparer terminated unsuccessfully."
  else
    .ok { didSomething := st.atLeastOne
          submittedSomething := st.submittedSomething
          contentIDMap := st.contentIDMap }

/-- `recursivelyPrepare` (index.js lines 19–100) over the walker's event
sequence: the delivered result, the final value of the caller's `opts`
object, and the list of `opts` snapshots passed to the preparer. -/
def recursivelyPrepare (rel : String → String) (preparer : String → PrepResult)
    (events : List WalkEvent) (opts : PrepareOpts) :
    Except String AggregateResult × PrepareOpts × List PrepareOpts :=
  let st := runWalk rel preparer events opts
  (endHandler st, st.opts, st.prepareCalls)

/-- The events whose directory holds the `_deconst.json` marker, i.e. the
content roots the files handler actually prepares. -/
def markerEvents (events : List WalkEvent) : List WalkEvent :=
  events.filter (fun ev => hasMarker ev.2)

/-- Whether one preparer reply counts as successful for `allSuccessful`:
an error reply or `success = false` both clear the flag. -/
def prepOk : PrepResult → Bool
  | .err _ => false
  | .ok o => o.success

/-- Whether one preparer reply reported submission (`didSomething`). -/
def prepDid : PrepResult → Bool
  | .err _ => false
  | .ok o => o.didSomething

/-- One event leaves `allSuccessful` intact iff it has no marker or its
preparer reply was successful. -/
def eventOk (preparer : String → PrepResult) (ev : WalkEvent) : Bool :=
  !hasMarker ev.2 || prepOk (preparer ev.1)

/-- One event sets `submittedSomething` iff it has a marker and its
preparer reply reported `didSomething`. -/
def eventDid (preparer : String → PrepResult) (ev : WalkEvent) : Bool :=
  hasMarker ev.2 && prepDid (preparer ev.1)

theorem runWalkFrom_nil (rel : String → String) (preparer : String → PrepResult)
    (st : WalkState) : runWalkFrom rel preparer st [] = st := rfl

theorem runWalkFrom_cons (rel : String → String) (preparer : String → PrepResult)
    (st : WalkState) (ev : WalkEvent) (evs : List WalkEvent) :
    runWalkFrom rel preparer st (ev :: evs)
      = runWalkFrom rel preparer (filesHandler rel preparer st ev.1 ev.2) evs := rfl

theorem runWalkFrom_allSuccessful (rel : String → String)
    (preparer : String → PrepResult) (evs : List WalkEvent) : ∀ st : WalkState,
    (runWalkFrom rel preparer st evs).allSuccessful
      = (st.allSuccessful && evs.all (eventOk preparer)) := by
  induction evs with
  | nil => intro st; simp [runWalkFrom_nil]
  | cons ev evs ih =>
    intro st
    rw [runWalkFrom_cons, ih]
    simp only [filesHandler, eventOk, List.all_cons]
    by_cases h : hasMarker ev.2
    · cases hp : preparer ev.1 with
      | err m => simp [h, hp, prepOk]
      | ok o =>
        by_cases hd : o.didSomething <;>
          simp [h, hp, prepOk, hd, Bool.and_assoc]
    · simp [h]

theorem runWalkFrom_atLeastOne (rel : String → String)
    (preparer : String → PrepResult) (evs : List WalkEvent) : ∀ st : WalkState,
    (runWalkFrom rel preparer st evs).atLeastOne
      = (st.atLeastOne || evs.any (fun ev => hasMarker ev.2)) := by
  induction evs with
  | nil => intro st; simp [runWalkFrom_nil]
  | cons ev evs ih =>
    intro st
    rw [runWalkFrom_cons, ih]
    simp only [filesHandler, List.any_cons]
    by_cases h : hasMarker ev.2
    · cases hp : preparer ev.1 with
      | err m => simp [h, hp]
      | ok o => by_cases hd : o.didSomething <;> simp [h, hp, hd]
    · simp [h]

theorem runWalkFrom_submittedSomething (rel : String → String)
    (preparer : String → PrepResult) (evs : List WalkEvent) : ∀ st : WalkState,
    (runWalkFrom rel preparer st evs).submittedSomething
      = (st.submittedSomething || evs.any (eventDid preparer)) := by
  induction evs with
  | nil => intro st; simp [runWalkFrom_nil]
  | cons ev evs ih =>
    intro st
    rw [runWalkFrom_cons, ih]
    simp only [filesHandler, eventDid, List.any_cons]
    by_cases h : hasMarker ev.2
    · cases hp : preparer ev.1 with
      | err m => simp [h, hp, prepDid]
      | ok o =>
        by_cases hd : o.didSomething <;>
          simp [h, hp, prepDid, hd, Bool.or_assoc]
    · simp [h]

theorem runWalkFrom_opts_revisionID (rel : String → String)
    (preparer : String → PrepResult) (evs : List WalkEvent) : ∀ st : WalkState,
    (runWalkFrom rel preparer st evs).opts.revisionID = st.opts.revisionID := by
  induction evs with
  | nil => intro st; simp [runWalkFrom_nil]
  | cons ev evs ih =>
    intro st
    rw [runWalkFrom_cons, ih]
    simp only [filesHandler]
    by_cases h : hasMarker ev.2
    · cases hp : preparer ev.1 with
      | err m => simp [h, hp]
      | ok o => by_cases hd : o.didSomething <;> simp [h, hp, hd]
    · simp [h]

theorem runWalkFrom_opts_contentServiceURL (rel : String → String)
    (preparer : String → PrepResult) (evs : List WalkEvent) : ∀ st : WalkState,
    (runWalkFrom rel preparer st evs).opts.contentServiceURL
      = st.opts.contentServiceURL := by
  induction evs with
  | nil => intro st; simp [runWalkFrom_nil]
  | cons ev evs ih =>
    intro st
    rw [runWalkFrom_cons, ih]
    simp only [filesHandler]
    by_cases h : hasMarker ev.2
    · cases hp : preparer ev.1 with
      | err m => simp [h, hp]
      | ok o => by_cases hd : o.didSomething <;> simp [h, hp, hd]
    · simp [h]

theorem runWalkFrom_opts_contentServiceAPIKey (rel : String → String)
    (preparer : String → PrepResult) (evs : List WalkEvent) : ∀ st : WalkState,
    (runWalkFrom rel preparer st evs).opts.contentServiceAPIKey
      = st.opts.contentServiceAPIKey := by
  induction evs with
  | nil => intro st; simp [runWalkFrom_nil]
  | cons ev evs ih =>
    intro st
    rw [runWalkFrom_cons, ih]
    simp only [filesHandler]
    by_cases h : hasMarker ev.2
    · cases hp : preparer ev.1 with
      | err m => simp [h, hp]
      | ok o => by_cases hd : o.didSomething <;> simp [h, hp, hd]
    · simp [h]

theorem runWalkFrom_opts_contentRoot (rel : String → String)
    (preparer : String → PrepResult) (evs : List WalkEvent) : ∀ st : WalkState,
    (runWalkFrom rel preparer st evs).opts.contentRoot
      = (((markerEvents evs).map (fun ev => ev.1)).getLast?).elim
          st.opts.contentRoot some := by
  induction evs with
  | nil => intro st; simp [runWalkFrom_nil, markerEvents]
  | cons ev evs ih =>
    intro st
    rw [runWalkFrom_cons, ih]
    simp only [filesHandler, markerEvents]
    by_cases h : hasMarker ev.2
    · have hfilter : List.filter (fun ev => hasMarker ev.2) (ev :: evs)
          = ev :: List.filter (fun ev => hasMarker ev.2) evs := by
        simp [List.filter_cons, h]
      rw [hfilter]
      cases hrest : ((evs.filter (fun ev => hasMarker ev.2)).map
          (fun ev => ev.1)).getLast? with
      | none =>
        have : (evs.filter (fun ev => hasMarker ev.2)).map (fun ev => ev.1) = [] := by
          cases hmap : (evs.filter (fun ev => hasMarker ev.2)).map
              (fun ev => ev.1) with
          | nil => rfl
          | cons a l => rw [hmap] at hrest; simp [List.getLast?_cons] at hrest
        cases hp : preparer ev.1 with
        | err m => simp [markerEvents, hrest, this, h, hp]
        | ok o =>
          by_cases hd : o.didSomething <;>
            simp [markerEvents, hrest, this, h, hp, hd]
      | some r =>
        have hlast : ((ev.1 :: (evs.filter (fun ev => hasMarker ev.2)).map
            (fun ev => ev.1))).getLast? = some r := by
          rw [List.getLast?_cons]
          simp [hrest]
        cases hp : preparer ev.1 with
        | err m => simp [markerEvents, hrest, hlast, h, hp]
        | ok o =>
          by_cases hd : o.didSomething <;>
            simp [markerEvents, hrest, hlast, h, hp, hd]
    · have hfilter : List.filter (fun ev => hasMarker ev.2) (ev :: evs)
          = List.filter (fun ev => hasMarker ev.2) evs := by
        simp [List.filter_cons, h]
      rw [hfilter]
      simp [h, markerEvents]

theorem runWalkFrom_prepareCalls (rel : String → String)
    (preparer : String → PrepResult) (evs : List WalkEvent) : ∀ st : WalkState,
    (runWalkFrom rel preparer st evs).prepareCalls
      = st.prepareCalls ++ (markerEvents evs).map
          (fun ev => { st.opts with contentRoot := some ev.1 }) := by
  induction evs with
  | nil => intro st; simp [runWalkFrom_nil, markerEvents]
  | cons ev evs ih =>
    intro st
    rw [runWalkFrom_cons, ih]
    simp only [filesHandler, markerEvents, List.filter_cons]
    by_cases h : hasMarker ev.2
    · cases hp : preparer ev.1 with
      | err m => simp [h, hp, markerEvents]
      | ok o => by_cases hd : o.didSomething <;> simp [h, hp, hd, markerEvents]
    · simp [h, markerEvents]

/-- The pure update that one walk event applies to `contentIDMap`. -/
def mapStep (rel : String → String) (preparer : String → PrepResult)
    (m : List (String × String)) (ev : WalkEvent) : List (String × String) :=
  if hasMarker ev.2 then
    match preparer ev.1 with
    | .err _ => m
    | .ok o => if o.didSomething then mapSet m (rel ev.1) o.contentIDBase else m
  else m

theorem runWalkFrom_contentIDMap (rel : String → String)
    (preparer : String → PrepResult) (evs : List WalkEvent) : ∀ st : WalkState,
    (runWalkFrom rel preparer st evs).contentIDMap
      = evs.foldl (mapStep rel preparer) st.contentIDMap := by
  induction evs with
  | nil => intro st; simp [runWalkFrom_nil]
  | cons ev evs ih =>
    intro st
    rw [runWalkFrom_cons, ih]
    simp only [filesHandler, mapStep, List.foldl_cons]
    by_cases h : hasMarker ev.2
    · cases hp : preparer ev.1 with
      | err m => simp [h, hp, mapStep]
      | ok o => by_cases hd : o.didSomething <;> simp [h, hp, hd, mapStep]
    · simp [h, mapStep]

theorem mapGet_mapSet_self (m : List (String × String)) (k v : String) :
    mapGet (mapSet m k v) k = some v := by
  induction m with
  | nil => simp [mapSet, mapGet]
  | cons p rest ih =>
    by_cases h : p.1 = k
    · simp [mapSet, mapGet, h]
    · simp [mapSet, mapGet, h, ih]

theorem mapGet_mapSet_ne (m : List (String × String)) (k v k' : String)
    (h : k' ≠ k) : mapGet (mapSet m k v) k' = mapGet m k' := by
  induction m with
  | nil =>
    have hne : ¬ k = k' := fun hh => h hh.symm
    simp [mapSet, mapGet, hne]
  | cons p rest ih =>
    have hne : ¬ k = k' := fun hh => h hh.symm
    by_cases hp : p.1 = k
    · simp [mapSet, mapGet, hp, hne]
    · by_cases hp' : p.1 = k' <;> simp [mapSet, mapGet, hp, hp', hne, h, ih]

theorem foldl_mapStep_frame (rel : String → String)
    (preparer : String → PrepResult) (evs : List WalkEvent) (k : String)
    (h : ∀ ev ∈ markerEvents evs, rel ev.1 ≠ k) : ∀ m : List (String × String),
    mapGet (evs.foldl (mapStep rel preparer) m) k = mapGet m k := by
  induction evs with
  | nil => intro m; simp
  | cons ev evs ih =>
    intro m
    have htail : ∀ ev' ∈ markerEvents evs, rel ev'.1 ≠ k := by
      intro ev' hev'
      exact h ev' (by
        simp only [markerEvents, List.mem_filter] at hev' ⊢
        exact ⟨List.mem_cons_of_mem _ hev'.1, hev'.2⟩)
    rw [List.foldl_cons, ih htail]
    by_cases hm : hasMarker ev.2
    · cases hp : preparer ev.1 with
      | err msg => simp [mapStep, hm, hp]
      | ok o =>
        by_cases hd : o.didSomething
        · have hne : rel ev.1 ≠ k := h ev (by
            simp [markerEvents, List.mem_filter, hm])
          simp only [mapStep, hm, hp, hd, if_true, if_pos]
          rw [mapGet_mapSet_ne _ _ _ _ (fun hh => hne hh.symm)]
        · simp [mapStep, hm, hp, hd]
    · simp [mapStep, hm]

theorem foldl_mapStep_mapGet (rel : String → String)
    (preparer : String → PrepResult) (evs : List WalkEvent)
    (hnd : ((markerEvents evs).map (fun ev => rel ev.1)).Nodup)
    (e : WalkEvent) (he : e ∈ evs) (hm : hasMarker e.2 = true)
    (o : PrepareOutcome) (ho : preparer e.1 = .ok o) :
    ∀ m : List (String × String), mapGet m (rel e.1) = none →
    mapGet (evs.foldl (mapStep rel preparer) m) (rel e.1)
      = if o.didSomething then some o.contentIDBase else none := by
  induction evs with
  | nil => cases he
  | cons ev evs ih =>
    intro m hm0
    rcases List.mem_cons.mp he with heq | htl
    · subst heq
      have hmarker : e ∈ markerEvents (e :: evs) := by
        simp [markerEvents, List.mem_filter, hm]
      have hcons : markerEvents (e :: evs) = e :: markerEvents evs := by
        simp [markerEvents, List.filter_cons, hm]
      have hnotin : ∀ ev' ∈ markerEvents evs, rel ev'.1 ≠ rel e.1 := by
        rw [hcons] at hnd
        simp only [List.map_cons, List.nodup_cons, List.mem_map] at hnd
        intro ev' hev' hcontra
        exact hnd.1 ⟨ev', hev', hcontra⟩
      rw [List.foldl_cons, foldl_mapStep_frame rel preparer evs _ hnotin]
      by_cases hd : o.didSomething
      · simp [mapStep, hm, ho, hd, mapGet_mapSet_self]
      · simp [mapStep, hm, ho, hd, hm0]
    · have htailnd : ((markerEvents evs).map (fun ev => rel ev.1)).Nodup := by
        by_cases hmev : hasMarker ev.2
        · have hcons : markerEvents (ev :: evs) = ev :: markerEvents evs := by
            simp [markerEvents, List.filter_cons, hmev]
          rw [hcons] at hnd
          exact (List.nodup_cons.mp hnd).2
        · have hcons : markerEvents (ev :: evs) = markerEvents evs := by
            simp [markerEvents, List.filter_cons, hmev]
          rwa [hcons] at hnd
      have hstep : mapGet (mapStep rel preparer m ev) (rel e.1) = none := by
        by_cases hmev : hasMarker ev.2
        · cases hp : preparer ev.1 with
          | err msg => simp [mapStep, hmev, hp, hm0]
          | ok o' =>
            by_cases hd' : o'.didSomething
            · have hkey : rel e.1 ≠ rel ev.1 := by
                have hcons : markerEvents (ev :: evs) = ev :: markerEvents evs := by
                  simp [markerEvents, List.filter_cons, hmev]
                rw [hcons] at hnd
                simp only [List.map_cons, List.nodup_cons, List.mem_map] at hnd
                intro hcontra
                exact hnd.1 ⟨e, by simp [markerEvents, List.mem_filter, htl, hm],
                  hcontra⟩
              simp only [mapStep, hmev, hp, hd', if_true, if_pos]
              rw [mapGet_mapSet_ne _ _ _ _ hkey, hm0]
            · simp [mapStep, hmev, hp, hd', hm0]
        · simp [mapStep, hmev, hm0]
      rw [List.foldl_cons]
      exact ih htailnd htl _ hstep

theorem runWalk_allSuccessful_false_iff (rel : String → String)
    (preparer : String → PrepResult) (evs : List WalkEvent) (opts : PrepareOpts) :
    (runWalk rel preparer evs opts).allSuccessful = false
      ↔ ∃ ev ∈ markerEvents evs, prepOk (preparer ev.1) = false := by
  rw [runWalk, runWalkFrom_allSuccessful]
  simp only [initialWalkState, Bool.true_and]
  rw [show (evs.all (eventOk preparer) = false)
      ↔ ¬ (evs.all (eventOk preparer) = true) by simp]
  simp only [List.all_eq_true, eventOk, markerEvents, List.mem_filter]
  constructor
  · intro h
    rcases not_forall.mp h with ⟨ev, hev⟩
    rcases Classical.not_imp.mp hev with ⟨hmem, hbad⟩
    refine ⟨ev, ⟨hmem, ?_⟩, ?_⟩
    · cases hmk : hasMarker ev.2 with
      | true => rfl
      | false => exact absurd (by simp [hmk]) hbad
    · cases hok : prepOk (preparer ev.1) with
      | true => exact absurd (by simp [hok]) hbad
      | false => rfl
  · rintro ⟨ev, ⟨hmem, hmk⟩, hbad⟩ h
    have := h ev hmem
    simp [hmk, hbad] at this

theorem recursivelyPrepare_fst_error_iff (rel : String → String)
    (preparer : String → PrepResult) (evs : List WalkEvent) (opts : PrepareOpts) :
    (recursivelyPrepare rel preparer evs opts).1
        = .error "At least one preparer terminated unsuccessfully."
      ↔ (runWalk rel preparer evs opts).allSuccessful = false := by
  cases h : (runWalk rel preparer evs opts).allSuccessful <;>
    simp [recursivelyPrepare, endHandler, h]

/-- C2: in `recursivelyPrepare`, a failed root only clears `allSuccessful`;
every marker root is still handed to the preparer (the call list covers the
marker events exactly, in order, whatever the outcomes), `allSuccessful` is
false iff some preparation errored or reported `success = false`, and the
aggregate error is produced only by the `end` handler, i.e. exactly when
the completed walk left `allSuccessful` false. -/
theorem recursivelyPrepare_partial_failure (rel : String → String)
    (preparer : String → PrepResult) (evs : List WalkEvent) (opts : PrepareOpts) :
    (((recursivelyPrepare rel preparer evs opts).2.2).map (fun o => o.contentRoot)
        = (markerEvents evs).map (fun ev => some ev.1))
    ∧ ((runWalk rel preparer evs opts).allSuccessful = false
        ↔ ∃ ev ∈ markerEvents evs, prepOk (preparer ev.1) = false)
    ∧ ((recursivelyPrepare rel preparer evs opts).1
        = .error "At least one preparer terminated unsuccessfully."
        ↔ (runWalk rel preparer evs opts).allSuccessful = false) := by
  refine ⟨?_, runWalk_allSuccessful_false_iff rel preparer evs opts,
    recursivelyPrepare_fst_error_iff rel preparer evs opts⟩
  have := runWalkFrom_prepareCalls rel preparer evs (initialWalkState opts)
  simp only [recursivelyPrepare, runWalk]
  rw [this]
  simp [initialWalkState, List.map_map, Function.comp]

/-- C3: after a walk, `contentIDMap` holds an entry under a prepared root's
workspace-relative path iff that root's outcome reported
`didSomething = true`, the stored value being the outcome's
`contentIDBase`; and `submittedSomething` is set iff some marker event's
outcome reported `didSomething = true`. -/
theorem contentIDMap_matches_didSomething (rel : String → String)
    (preparer : String → PrepResult) (evs : List WalkEvent) (opts : PrepareOpts)
    (hnd : ((markerEvents evs).map (fun ev => rel ev.1)).Nodup)
    (e : WalkEvent) (he : e ∈ evs) (hm : hasMarker e.2 = true)
    (o : PrepareOutcome) (ho : preparer e.1 = .ok o) :
    (mapGet (runWalk rel preparer evs opts).contentIDMap (rel e.1)
        = if o.didSomething then some o.contentIDBase else none)
    ∧ ((runWalk rel preparer evs opts).submittedSomething = true
        ↔ ∃ ev ∈ markerEvents evs, prepDid (preparer ev.1) = true) := by
  constructor
  · rw [runWalk, runWalkFrom_contentIDMap]
    exact foldl_mapStep_mapGet rel preparer evs hnd e he hm o ho _
      (by simp [initialWalkState, mapGet])
  · rw [runWalk, runWalkFrom_submittedSomething]
    simp only [initialWalkState, Bool.false_or, List.any_eq_true, eventDid,
      markerEvents, List.mem_filter, Bool.and_eq_true]
    constructor
    · rintro ⟨ev, hmem, hmk, hdid⟩
      exact ⟨ev, ⟨hmem, hmk⟩, hdid⟩
    · rintro ⟨ev, ⟨hmem, hmk⟩, hdid⟩
      exact ⟨ev, hmem, hmk, hdid⟩

/-- Concrete witness for `contentIDMap_matches_didSomething`: two content
roots, only the first reporting `didSomething`. -/
theorem contentIDMap_matches_didSomething_witness :
    ((((markerEvents [("docs", ["_deconst.json"]), ("api", ["_deconst.json"])]).map
        (fun ev => (fun r => r) ev.1))).Nodup
      ∧ ("docs", ["_deconst.json"])
          ∈ [(("docs" : String), (["_deconst.json"] : List String)),
             ("api", ["_deconst.json"])]
      ∧ hasMarker ["_deconst.json"] = true
      ∧ (fun r => if r = "docs" then PrepResult.ok ⟨true, true, "id1"⟩
          else PrepResult.ok ⟨true, false, "idx"⟩) "docs"
          = PrepResult.ok ⟨true, true, "id1"⟩)
    ∧ (mapGet (runWalk (fun r => r)
          (fun r => if r = "docs" then PrepResult.ok ⟨true, true, "id1"⟩
            else PrepResult.ok ⟨true, false, "idx"⟩)
          [("docs", ["_deconst.json"]), ("api", ["_deconst.json"])]
          ⟨"rev", "url", "key", none⟩).contentIDMap ((fun r => r) ("docs", ["_deconst.json"]).1)
        = if (true : Bool) then some "id1" else none)
      ∧ ((runWalk (fun r => r)
          (fun r => if r = "docs" then PrepResult.ok ⟨true, true, "id1"⟩
            else PrepResult.ok ⟨true, false, "idx"⟩)
          [("docs", ["_deconst.json"]), ("api", ["_deconst.json"])]
          ⟨"rev", "url", "key", none⟩).submittedSomething = true
        ↔ ∃ ev ∈ markerEvents [(("docs" : String), (["_deconst.json"] : List String)),
            ("api", ["_deconst.json"])],
            prepDid ((fun r => if r = "docs" then PrepResult.ok ⟨true, true, "id1"⟩
              else PrepResult.ok ⟨true, false, "idx"⟩) ev.1) = true) :=
  ⟨⟨by decide, by decide, by decide, by decide⟩,
    contentIDMap_matches_didSomething (fun r => r)
      (fun r => if r = "docs" then PrepResult.ok ⟨true, true, "id1"⟩
        else PrepResult.ok ⟨true, false, "idx"⟩)
      [("docs", ["_deconst.json"]), ("api", ["_deconst.json"])]
      ⟨"rev", "url", "key", none⟩ (by decide)
      ("docs", ["_deconst.json"]) (by decide) (by decide)
      ⟨true, true, "id1"⟩ (by decide)⟩

/-- C9: whenever some preparation failed, the `end` handler delivers only
the `Error` — no `AggregateResult` reaches the callback, so the
`contentIDMap` entries accumulated for roots that did succeed are
discarded. -/
theorem failure_discards_aggregate (rel : String → String)
    (preparer : String → PrepResult) (evs : List WalkEvent) (opts : PrepareOpts)
    (h : ∃ ev ∈ markerEvents evs, prepOk (preparer ev.1) = false) :
    (recursivelyPrepare rel preparer evs opts).1
        = .error "At least one preparer terminated unsuccessfully."
    ∧ ∀ agg : AggregateResult,
        (recursivelyPrepare rel preparer evs opts).1 ≠ .ok agg := by
  have herr : (recursivelyPrepare rel preparer evs opts).1
      = .error "At least one preparer terminated unsuccessfully." :=
    (recursivelyPrepare_fst_error_iff rel preparer evs opts).mpr
      ((runWalk_allSuccessful_false_iff rel preparer evs opts).mpr h)
  exact ⟨herr, fun agg hagg => by rw [herr] at hagg; cases hagg⟩

/-- Concrete witness for `failure_discards_aggregate`: the first root
succeeds with `didSomething`, the second errors; the callback still gets
only the error. -/
theorem failure_discards_aggregate_witness :
    (∃ ev ∈ markerEvents [(("good" : String), (["_deconst.json"] : List String)),
        ("bad", ["_deconst.json"])],
        prepOk ((fun r => if r = "good" then PrepResult.ok ⟨true, true, "idg"⟩
          else PrepResult.err "boom") ev.1) = false)
    ∧ (recursivelyPrepare (fun r => r)
        (fun r => if r = "good" then PrepResult.ok ⟨true, true, "idg"⟩
          else PrepResult.err "boom")
        [("good", ["_deconst.json"]), ("bad", ["_deconst.json"])]
        ⟨"rev", "url", "key", none⟩).1
        = .error "At least one preparer terminated unsuccessfully." :=
  ⟨by decide,
    (failure_discards_aggregate (fun r => r)
      (fun r => if r = "good" then PrepResult.ok ⟨true, true, "idg"⟩
        else PrepResult.err "boom")
      [("good", ["_deconst.json"]), ("bad", ["_deconst.json"])]
      ⟨"rev", "url", "key", none⟩ (by decide)).1⟩

/-- C10: the walk mutates the one shared `opts` object in place — every
preparer call receives it with `contentRoot` set to the current root and
every other field untouched, and after the walk the caller's `opts` keeps
the last prepared root (or its original `contentRoot` when nothing was
prepared). -/
theorem opts_shared_mutation (rel : String → String)
    (preparer : String → PrepResult) (evs : List WalkEvent) (opts : PrepareOpts) :
    ((runWalk rel preparer evs opts).prepareCalls
        = (markerEvents evs).map (fun ev => { opts with contentRoot := some ev.1 }))
    ∧ ((runWalk rel preparer evs opts).opts.contentRoot
        = (((markerEvents evs).map (fun ev => ev.1)).getLast?).elim
            opts.contentRoot some)
    ∧ (runWalk rel preparer evs opts).opts.revisionID = opts.revisionID
    ∧ (runWalk rel preparer evs opts).opts.contentServiceURL
        = opts.contentServiceURL
    ∧ (runWalk rel preparer evs opts).opts.contentServiceAPIKey
        = opts.contentServiceAPIKey := by
  refine ⟨?_, ?_, ?_, ?_, ?_⟩
  · rw [runWalk, runWalkFrom_prepareCalls]; simp [initialWalkState]
  · rw [runWalk, runWalkFrom_opts_contentRoot]; simp [initialWalkState]
  · rw [runWalk, runWalkFrom_opts_revisionID]; simp [initialWalkState]
  · rw [runWalk, runWalkFrom_opts_contentServiceURL]; simp [initialWalkState]
  · rw [runWalk, runWalkFrom_opts_contentServiceAPIKey]; simp [initialWalkState]

/-! ### Directory pruning and the traversal (`directories` handler, C4) -/

/-- `/^\./.test(name)`: the name begins with a literal dot. -/
def startsWithDot (name : String) : Bool :=
  match name.data with
  | [] => false
  | c :: _ => c = '.'

/-- The exclusion test of the `directories` handler:
`/^\./.test(name) || name === '_build' || name === '_site'`. -/
def isExcluded (name : String) : Bool :=
  startsWithDot name || name = "_build" || name = "_site"

/-- The reverse splice loop `for (let i = stats.length; i--; i >= 0)` of
the `directories` handler (index.js lines 34–39), generic in the entry
type: examine indices `i-1`, …, `0`, removing each entry the predicate
accepts (`stats.splice(i, 1)`). -/
def dirLoop (p : α → Bool) : List α → Nat → List α
  | stats, 0 => stats
  | stats, i + 1 =>
      dirLoop p
        (match stats.get? i with
         | some x => if p x then stats.eraseIdx i else stats
         | none => stats) i

/-- The whole `directories` handler body: run the splice loop from the
last index down. -/
def directoriesHandler (p : α → Bool) (stats : List α) : List α :=
  dirLoop p stats stats.length

theorem dirLoop_eq_filter (p : α → Bool) :
    ∀ (i : Nat) (stats : List α), i ≤ stats.length →
    dirLoop p stats i = (stats.take i).filter (fun x => !p x) ++ stats.drop i := by
  intro i
  induction i with
  | zero => intro stats _; simp [dirLoop]
  | succ i ih =>
    intro stats hle
    have hi : i < stats.length := Nat.lt_of_succ_le hle
    have hget : stats.get? i = some (stats.get ⟨i, hi⟩) := by
      simp [List.get?_eq_getElem?, List.getElem?_eq_getElem hi]
    rw [dirLoop, hget]
    dsimp only
    have htakesucc : stats.take (i + 1) = stats.take i ++ [stats.get ⟨i, hi⟩] := by
      rw [List.take_succ]
      simp [List.getElem?_eq_getElem hi]
    by_cases hp : p (stats.get ⟨i, hi⟩)
    · rw [if_pos hp]
      have herase : stats.eraseIdx i = stats.take i ++ stats.drop (i + 1) :=
        List.eraseIdx_eq_take_drop_succ stats i
      have hlen : i ≤ (stats.eraseIdx i).length := by
        rw [List.length_eraseIdx]
        simp only [hi, if_pos]
        omega
      rw [ih (stats.eraseIdx i) hlen]
      have htakelen : (stats.take i).length = i := by
        simp [List.length_take, Nat.min_eq_left (Nat.le_of_lt hi)]
      have htake : (stats.eraseIdx i).take i = stats.take i := by
        rw [herase]; exact List.take_left' htakelen
      have hdrop : (stats.eraseIdx i).drop i = stats.drop (i + 1) := by
        rw [herase]; exact List.drop_left' htakelen
      rw [htake, hdrop, htakesucc, List.filter_append]
      have hp' : p stats[i] = true := by
        simpa [List.get_eq_getElem] using hp
      have hone : List.filter (fun x => !p x) [stats.get ⟨i, hi⟩] = [] := by
        simp [hp']
      rw [hone, List.append_nil]
    · rw [if_neg hp]
      rw [ih stats (Nat.le_of_lt hi)]
      have hdropeq : stats.drop i = stats.get ⟨i, hi⟩ :: stats.drop (i + 1) :=
        List.drop_eq_getElem_cons hi
      rw [htakesucc, List.filter_append, hdropeq]
      have hp' : p stats[i] = false := by
        simp only [List.get_eq_getElem] at hp
        exact Bool.eq_false_iff.mpr hp
      have hone : List.filter (fun x => !p x) [stats.get ⟨i, hi⟩]
          = [stats.get ⟨i, hi⟩] := by
        simp [hp']
      rw [hone]
      simp

/-- The `directories` handler keeps exactly the entries the exclusion test
rejects, in order: the downward splice loop is pruning by predicate. -/
theorem directoriesHandler_eq_filter (p : α → Bool) (stats : List α) :
    directoriesHandler p stats = stats.filter (fun x => !p x) := by
  rw [directoriesHandler, dirLoop_eq_filter p stats.length stats (Nat.le_refl _)]
  simp

theorem mem_directoriesHandler {p : α → Bool} {stats : List α} {x : α}
    (h : x ∈ directoriesHandler p stats) : x ∈ stats := by
  rw [directoriesHandler_eq_filter] at h
  exact List.mem_of_mem_filter h

theorem not_p_of_mem_directoriesHandler {p : α → Bool} {stats : List α} {x : α}
    (h : x ∈ directoriesHandler p stats) : p x = false := by
  rw [directoriesHandler_eq_filter] at h
  have := List.of_mem_filter h
  simpa using this

/-- A directory tree: name, immediate file names, subdirectories. -/
inductive FSTree where
  | node (name : String) (files : List String) (children : List FSTree)

/-- Name of a tree's root directory. -/
def FSTree.name : FSTree → String
  | .node n _ _ => n

/-- The visit sequence of the `walk` traversal as driven by the
`directories` handler: visit the directory (emitting its `files` event),
prune the subdirectory list with the handler's splice loop, then descend
into the surviving subdirectories in order.  Paths are segment lists. -/
def walkTree (base : List String) : FSTree → List (List String × List String)
  | .node name files children =>
      (base ++ [name], files) ::
        (directoriesHandler (fun c : FSTree => isExcluded c.name) children).attach.flatMap
          (fun c => walkTree (base ++ [name]) c.1)
termination_by t => sizeOf t
decreasing_by
  rename_i children
  have hc : c.1 ∈ children := mem_directoriesHandler c.2
  have := List.sizeOf_lt_of_mem hc
  simp only [FSTree.node.sizeOf_spec]
  omega

theorem walkTree_shape : ∀ (n : Nat) (t : FSTree), sizeOf t ≤ n →
    ∀ (base p fs : List String), (p, fs) ∈ walkTree base t →
    ∃ rest, p = base ++ [t.name] ++ rest ∧ ∀ s ∈ rest, isExcluded s = false := by
  intro n
  induction n with
  | zero =>
    intro t ht
    exfalso
    cases t with
    | node name files children => simp [FSTree.node.sizeOf_spec] at ht
  | succ n ih =>
    intro t ht base p fs hmem
    cases t with
    | node name files children =>
      rw [walkTree] at hmem
      rcases List.mem_cons.mp hmem with heq | htail
      · have hp : p = base ++ [name] := congrArg Prod.fst heq
        exact ⟨[], by simp [hp, FSTree.name]⟩
      · rcases List.mem_flatMap.mp htail with ⟨c, hc, hmem'⟩
        have hchild : c.1 ∈ children := mem_directoriesHandler c.2
        have hkeep : isExcluded c.1.name = false :=
          @not_p_of_mem_directoriesHandler FSTree
            (fun c => isExcluded c.name) children c.1 c.2
        have hsize : sizeOf c.1 ≤ n := by
          have hlt := List.sizeOf_lt_of_mem hchild
          simp only [FSTree.node.sizeOf_spec] at ht
          omega
        rcases ih c.1 hsize (base ++ [name]) p fs hmem' with ⟨rest, hrest, hall⟩
        refine ⟨c.1.name :: rest, ?_, ?_⟩
        · rw [hrest]; simp [FSTree.name]
        · intro s hs
          rcases List.mem_cons.mp hs with hhead | htl
          · rw [hhead]; exact hkeep
          · exact hall s htl

/-- C4: the `directories` handler prunes dot-directories, `_build` and
`_site` before recursion, so no such directory below the workspace root is
ever visited by the walk — in particular it can never emit a `files` event
(and so can never be reported as a content root), even when it holds the
`_deconst.json` marker. -/
theorem excluded_directories_never_visited (base : List String) (t : FSTree)
    (p fs : List String) (d : String)
    (hd : p.getLast? = some d) (hexc : isExcluded d = true)
    (hne : p ≠ base ++ [t.name]) :
    (p, fs) ∉ walkTree base t := by
  intro hmem
  rcases walkTree_shape (sizeOf t) t (Nat.le_refl _) base p fs hmem with
    ⟨rest, hrest, hall⟩
  cases rest with
  | nil => exact hne (by simpa using hrest)
  | cons a l =>
    have hlast : p.getLast? = (a :: l).getLast? := by
      rw [hrest, List.getLast?_append]
      cases hcl : (a :: l).getLast? with
      | none => simp at hcl
      | some x => simp
    have hdmem : d ∈ a :: l := by
      rw [hlast] at hd
      exact List.mem_of_mem_getLast? hd
    rw [hall d hdmem] at hexc
    cases hexc

/-! ### The pull-request pipeline (`preparePullRequest`) -/

/-- The externally visible result of the whole pipeline. -/
structure PRResult where
  didSomething : Bool
deriving Repr, DecidableEq

/-- Observable invocations of the external collaborators, in order. -/
inductive Effect where
  | gitExec
  | issuedKey (name : String)
  | revokedKey (key : String)
  | preparedRoot (root : String)
  | whereisQuery (contentID : String)
  | postedComment (repoName prNumber : String)
deriving Repr, DecidableEq

/-- The toolbelt and configuration visible to `preparePullRequest`,
with every external collaborator's reply as an oracle field. -/
structure Toolbelt where
  mockGitSHA : Option String
  gitResult : Except String String
  stagingContentServiceURL : String
  issueKeyResult : Except String String
  revokeResult : Except String Unit
  stagingPresenter : Bool
  stagingPresenterURL : String
  whereis : String → Except String (List String)
  urlJoinWith : String → String → String
  github : Bool
  pullRequestURL : String
  postResult : Except String Unit
  rel : String → String
  preparer : String → PrepResult
  walkEvents : List WalkEvent

/-- The closure variables of `preparePullRequest` threaded between the
series stages. -/
structure PipeState where
  revisionID : String
  transientKey : String
  contentIDMap : List (String × String)
  presentedURLMap : Option (List (String × List String))
  submittedSomething : Bool
  didSomething : Bool
deriving Repr, DecidableEq

/-- All-null initial closure state. -/
def initialPipeState : PipeState :=
  { revisionID := ""
    transientKey := ""
    contentIDMap := []
    presentedURLMap := none
    submittedSomething := false
    didSomething := false }

/-- JavaScript truthiness of `toolbelt.config.mockGitSHA` (absent and the
empty string are falsy). -/
def truthyStr : Option String → Bool
  | none => false
  | some s => s != ""

/-- `stdout.toString().replace(/\r?\n$/, '')`: remove one trailing
newline, with an optional carriage return before it. -/
def stripTrailingNewline (s : String) : String :=
  match s.data.reverse with
  | '\n' :: '\r' :: rest => String.mk rest.reverse
  | '\n' :: rest => String.mk rest.reverse
  | _ => s

/-- One pipeline stage: reply plus the effects it performed. -/
abbrev Stage := Toolbelt → PipeState → Except String PipeState × List Effect

/-- `generateRevisionID` (index.js lines 114–139): mocked SHA short-cut,
otherwise one `git rev-parse` subprocess whose trailing newline is
stripped; the subprocess error is propagated. -/
def generateRevisionID : Stage := fun toolbelt st =>
  if truthyStr toolbelt.mockGitSHA then
    (.ok { st with revisionID := "build-" ++ toolbelt.mockGitSHA.getD "" }, [])
  else
    match toolbelt.gitResult with
    | .error e => (.error e, [.gitExec])
    | .ok stdout =>
        (.ok { st with revisionID := "build-" ++ stripTrailingNewline stdout },
          [.gitExec])

/-- `issueTransientKey` (index.js lines 141–150):
`issueAPIKey('temporary-' + revisionID)`. -/
def issueTransientKey : Stage := fun toolbelt st =>
  match toolbelt.issueKeyResult with
  | .error e => (.error e, [.issuedKey ("temporary-" ++ st.revisionID)])
  | .ok apiKey =>
      (.ok { st with transientKey := apiKey },
        [.issuedKey ("temporary-" ++ st.revisionID)])

/-- `invokePreparer` (index.js lines 152–169): run the recursive
preparation under a fresh `opts` and copy the aggregate into the closure
state. -/
def invokePreparer : Stage := fun toolbelt st =>
  let opts : PrepareOpts :=
    { revisionID := st.revisionID
      contentServiceURL := toolbelt.stagingContentServiceURL
      contentServiceAPIKey := st.transientKey
      contentRoot := none }
  let r := recursivelyPrepare toolbelt.rel toolbelt.preparer toolbelt.walkEvents opts
  let trace := r.2.2.map (fun o => Effect.preparedRoot (o.contentRoot.getD ""))
  match r.1 with
  | .error e => (.error e, trace)
  | .ok result =>
      (.ok { st with
          submittedSomething := result.submittedSomething
          didSomething := result.didSomething
          contentIDMap := result.contentIDMap }, trace)

/-- `revokeTransientKey` (index.js lines 171–174):
`revokeAPIKey(transientKey, cb)` — the invocation happens first, its reply
decides the stage outcome. -/
def revokeTransientKey : Stage := fun toolbelt st =>
  match toolbelt.revokeResult with
  | .error e => (.error e, [.revokedKey st.transientKey])
  | .ok _ => (.ok st, [.revokedKey st.transientKey])

/-- The `async.forEachOf` body of `getPresentedURLMap`, linearised in map
order: one `whereis` query per entry, each reply's paths joined against
the presenter base URL; the first error aborts. -/
def resolveEntries (toolbelt : Toolbelt) :
    List (String × String) → Except String (List (String × List String)) × List Effect
  | [] => (.ok [], [])
  | entry :: rest =>
      match toolbelt.whereis entry.2 with
      | .error e => (.error e, [.whereisQuery entry.2])
      | .ok mappings =>
          let presentedURLs := mappings.map
            (fun mappingPath =>
              toolbelt.urlJoinWith toolbelt.stagingPresenterURL mappingPath)
          let r := resolveEntries toolbelt rest
          (r.1.map (fun m => (entry.1, presentedURLs) :: m),
            .whereisQuery entry.2 :: r.2)

/-- `getPresentedURLMap` (index.js lines 176–200): absent presenter or
nothing submitted short-circuit to success; otherwise resolve every
`contentIDMap` entry. -/
def getPresentedURLMap : Stage := fun toolbelt st =>
  if !toolbelt.stagingPresenter then (.ok st, [])
  else if !st.submittedSomething then (.ok st, [])
  else
    let r := resolveEntries toolbelt st.contentIDMap
    match r.1 with
    | .error e => (.error e, r.2)
    | .ok m => (.ok { st with presentedURLMap := some m }, r.2)

/-- Split a character list on `/`. -/
def splitSegs : List Char → List (List Char)
  | [] => [[]]
  | c :: rest =>
      if c = '/' then [] :: splitSegs rest
      else match splitSegs rest with
        | seg :: segs => (c :: seg) :: segs
        | [] => [[c]]

/-- The regex `/([^/]+\/[^/]+)\/pull\/(\d+)$/` applied to the pull-request
URL: anchored at the end of the string, it matches exactly when the last
four `/`-separated segments are `<owner>/<repo>/pull/<digits>` with
`<owner>`, `<repo>` non-empty and `<digits>` a non-empty run of ASCII
digits (`[^/]+` forbids `/` inside a segment, `$` pins the match to the
end, and the leftmost match starts at the earliest segment boundary),
capturing `<owner>/<repo>` and `<digits>`. -/
def parsePullRequestURL (url : String) : Option (String × String) :=
  match (splitSegs url.data).reverse with
  | num :: pull :: repo :: owner :: _ =>
      if (!num.isEmpty) && num.all Char.isDigit && (pull == "pull".data)
          && (!repo.isEmpty) && (!owner.isEmpty) then
        some (String.mk owner ++ "/" ++ String.mk repo, String.mk num)
      else none
  | _ => none

/-- `commentOnGitHub` (index.js lines 202–235): no-ops when the URL map is
absent, nothing was submitted, no GitHub account exists, or the
pull-request URL fails the parse; otherwise one comment (built by the
external `comment.forSuccessfulBuild` formatter) is posted, the posting
reply deciding the stage outcome. -/
def commentOnGitHub : Stage := fun toolbelt st =>
  match st.presentedURLMap with
  | none => (.ok st, [])
  | some _ =>
      if !st.submittedSomething then (.ok st, [])
      else if !toolbelt.github then (.ok st, [])
      else
        match parsePullRequestURL toolbelt.pullRequestURL with
        | none => (.ok st, [])
        | some parsed =>
            match toolbelt.postResult with
            | .error e => (.error e, [.postedComment parsed.1 parsed.2])
            | .ok _ => (.ok st, [.postedComment parsed.1 parsed.2])

/-- `async.series`: run the stages in order, stopping at the first error;
the traces of the executed stages concatenate. -/
def seriesRun : List Stage → Toolbelt → PipeState → Except String PipeState × List Effect
  | [], _, st => (.ok st, [])
  | stage :: rest, toolbelt, st =>
      let step := stage toolbelt st
      match step.1 with
      | .error e => (.error e, step.2)
      | .ok st1 =>
          let r := seriesRun rest toolbelt st1
          (r.1, step.2 ++ r.2)

/-- `preparePullRequest` (index.js lines 102–249). -/
def preparePullRequest (toolbelt : Toolbelt) : Except String PRResult × List Effect :=
  let r := seriesRun
    [generateRevisionID, issueTransientKey, invokePreparer,
      revokeTransientKey, getPresentedURLMap, commentOnGitHub]
    toolbelt initialPipeState
  (r.1.map (fun st => { didSomething := st.didSomething }), r.2)

/-- Whether an effect is a key revocation. -/
def isRevoke : Effect → Bool
  | .revokedKey _ => true
  | _ => false

/-- Whether an effect is network I/O of the presentation/notification
phase (a presenter query or a GitHub comment). -/
def isNetworkNotify : Effect → Bool
  | .whereisQuery _ => true
  | .postedComment _ _ => true
  | _ => false

/-- Bool view of an `Except` being a success. -/
def exceptOk {ε α : Type} : Except ε α → Bool
  | .ok _ => true
  | .error _ => false

/-- The first stage succeeds: a truthy mocked SHA or a successful git
subprocess. -/
def revisionStageOk (toolbelt : Toolbelt) : Bool :=
  truthyStr toolbelt.mockGitSHA || exceptOk toolbelt.gitResult

/-- Every discovered root's preparation succeeds. -/
def preparationOk (toolbelt : Toolbelt) : Bool :=
  toolbelt.walkEvents.all (eventOk toolbelt.preparer)

/-- The aggregate a fully successful preparation run delivers. -/
def aggregateOf (toolbelt : Toolbelt) : AggregateResult :=
  { didSomething := toolbelt.walkEvents.any (fun ev => hasMarker ev.2)
    submittedSomething := toolbelt.walkEvents.any (eventDid toolbelt.preparer)
    contentIDMap := toolbelt.walkEvents.foldl
      (mapStep toolbelt.rel toolbelt.preparer) [] }

/-- The preparer invocations the preparation stage performs. -/
def prepTrace (toolbelt : Toolbelt) : List Effect :=
  (markerEvents toolbelt.walkEvents).map (fun ev => .preparedRoot ev.1)

theorem seriesRun_cons_ok (stage : Stage) (rest : List Stage)
    (toolbelt : Toolbelt) (st st1 : PipeState) (tr : List Effect)
    (h : stage toolbelt st = (.ok st1, tr)) :
    seriesRun (stage :: rest) toolbelt st
      = ((seriesRun rest toolbelt st1).1, tr ++ (seriesRun rest toolbelt st1).2) := by
  simp [seriesRun, h]

theorem seriesRun_cons_err (stage : Stage) (rest : List Stage)
    (toolbelt : Toolbelt) (st : PipeState) (e : String) (tr : List Effect)
    (h : stage toolbelt st = (.error e, tr)) :
    seriesRun (stage :: rest) toolbelt st = (.error e, tr) := by
  simp [seriesRun, h]

theorem generateRevisionID_mock (toolbelt : Toolbelt) (st : PipeState)
    (h : truthyStr toolbelt.mockGitSHA = true) :
    generateRevisionID toolbelt st
      = (.ok { st with revisionID := "build-" ++ toolbelt.mockGitSHA.getD "" },
          []) := by
  simp [generateRevisionID, h]

theorem generateRevisionID_git_ok (toolbelt : Toolbelt) (st : PipeState)
    (stdout : String) (h : truthyStr toolbelt.mockGitSHA = false)
    (hg : toolbelt.gitResult = .ok stdout) :
    generateRevisionID toolbelt st
      = (.ok { st with revisionID := "build-" ++ stripTrailingNewline stdout },
          [.gitExec]) := by
  simp [generateRevisionID, h, hg]

theorem generateRevisionID_git_err (toolbelt : Toolbelt) (st : PipeState)
    (e : String) (h : truthyStr toolbelt.mockGitSHA = false)
    (hg : toolbelt.gitResult = .error e) :
    generateRevisionID toolbelt st = (.error e, [.gitExec]) := by
  simp [generateRevisionID, h, hg]

theorem generateRevisionID_ok_shape (toolbelt : Toolbelt) (st : PipeState)
    (h1 : revisionStageOk toolbelt = true) :
    ∃ r tr, generateRevisionID toolbelt st = (.ok { st with revisionID := r }, tr)
      ∧ tr.filter isRevoke = [] ∧ tr.filter isNetworkNotify = [] := by
  by_cases hmock : truthyStr toolbelt.mockGitSHA = true
  · exact ⟨_, [], generateRevisionID_mock toolbelt st hmock, by simp, by simp⟩
  · have hm' : truthyStr toolbelt.mockGitSHA = false := by
      simpa using hmock
    have hgOk : exceptOk toolbelt.gitResult = true := by
      have := h1
      simp only [revisionStageOk, hm', Bool.false_or] at this
      exact this
    cases hg : toolbelt.gitResult with
    | error e => rw [hg] at hgOk; simp [exceptOk] at hgOk
    | ok stdout =>
        exact ⟨_, [.gitExec], generateRevisionID_git_ok toolbelt st stdout hm' hg,
          by simp [isRevoke], by simp [isNetworkNotify]⟩

theorem issueTransientKey_ok (toolbelt : Toolbelt) (st : PipeState) (k : String)
    (h : toolbelt.issueKeyResult = .ok k) :
    issueTransientKey toolbelt st
      = (.ok { st with transientKey := k },
          [.issuedKey ("temporary-" ++ st.revisionID)]) := by
  simp [issueTransientKey, h]

theorem issueTransientKey_err (toolbelt : Toolbelt) (st : PipeState) (e : String)
    (h : toolbelt.issueKeyResult = .error e) :
    issueTransientKey toolbelt st
      = (.error e, [.issuedKey ("temporary-" ++ st.revisionID)]) := by
  simp [issueTransientKey, h]

theorem recursivelyPrepare_fst_ok (rel : String → String)
    (preparer : String → PrepResult) (evs : List WalkEvent) (opts : PrepareOpts)
    (h : evs.all (eventOk preparer) = true) :
    (recursivelyPrepare rel preparer evs opts).1
      = .ok { didSomething := evs.any (fun ev => hasMarker ev.2)
              submittedSomething := evs.any (eventDid preparer)
              contentIDMap := evs.foldl (mapStep rel preparer) [] } := by
  have hAll : (runWalk rel preparer evs opts).allSuccessful = true := by
    rw [runWalk, runWalkFrom_allSuccessful]
    simp [initialWalkState, h]
  simp only [recursivelyPrepare, endHandler, hAll, Bool.not_true, Bool.false_eq_true,
    if_false]
  rw [runWalk, runWalkFrom_atLeastOne, runWalkFrom_submittedSomething,
    runWalkFrom_contentIDMap]
  simp [initialWalkState]

theorem recursivelyPrepare_fst_err (rel : String → String)
    (preparer : String → PrepResult) (evs : List WalkEvent) (opts : PrepareOpts)
    (h : evs.all (eventOk preparer) = false) :
    (recursivelyPrepare rel preparer evs opts).1
      = .error "At least one preparer terminated unsuccessfully." := by
  have hAll : (runWalk rel preparer evs opts).allSuccessful = false := by
    rw [runWalk, runWalkFrom_allSuccessful]
    simp [initialWalkState, h]
  simp [recursivelyPrepare, endHandler, hAll]

theorem recursivelyPrepare_calls (rel : String → String)
    (preparer : String → PrepResult) (evs : List WalkEvent) (opts : PrepareOpts) :
    (recursivelyPrepare rel preparer evs opts).2.2
      = (markerEvents evs).map (fun ev => { opts with contentRoot := some ev.1 }) := by
  simp only [recursivelyPrepare, runWalk]
  rw [runWalkFrom_prepareCalls]
  simp [initialWalkState]

theorem invokePreparer_ok (toolbelt : Toolbelt) (st : PipeState)
    (h : preparationOk toolbelt = true) :
    invokePreparer toolbelt st
      = (.ok { st with
            submittedSomething := (aggregateOf toolbelt).submittedSomething
            didSomething := (aggregateOf toolbelt).didSomething
            contentIDMap := (aggregateOf toolbelt).contentIDMap },
          prepTrace toolbelt) := by
  simp only [invokePreparer]
  rw [recursivelyPrepare_calls,
    recursivelyPrepare_fst_ok toolbelt.rel toolbelt.preparer toolbelt.walkEvents _ h]
  simp [aggregateOf, prepTrace, List.map_map, Function.comp]

theorem invokePreparer_err (toolbelt : Toolbelt) (st : PipeState)
    (h : preparationOk toolbelt = false) :
    invokePreparer toolbelt st
      = (.error "At least one preparer terminated unsuccessfully.",
          prepTrace toolbelt) := by
  simp only [invokePreparer]
  rw [recursivelyPrepare_calls,
    recursivelyPrepare_fst_err toolbelt.rel toolbelt.preparer toolbelt.walkEvents _ h]
  simp [prepTrace, List.map_map, Function.comp]

theorem revokeTransientKey_ok (toolbelt : Toolbelt) (st : PipeState)
    (h : toolbelt.revokeResult = .ok ()) :
    revokeTransientKey toolbelt st = (.ok st, [.revokedKey st.transientKey]) := by
  simp [revokeTransientKey, h]

theorem revokeTransientKey_err (toolbelt : Toolbelt) (st : PipeState) (e : String)
    (h : toolbelt.revokeResult = .error e) :
    revokeTransientKey toolbelt st = (.error e, [.revokedKey st.transientKey]) := by
  simp [revokeTransientKey, h]

theorem getPresentedURLMap_no_presenter (toolbelt : Toolbelt) (st : PipeState)
    (h : toolbelt.stagingPresenter = false) :
    getPresentedURLMap toolbelt st = (.ok st, []) := by
  simp [getPresentedURLMap, h]

theorem getPresentedURLMap_not_submitted (toolbelt : Toolbelt) (st : PipeState)
    (h : st.submittedSomething = false) :
    getPresentedURLMap toolbelt st = (.ok st, []) := by
  by_cases hp : toolbelt.stagingPresenter <;> simp [getPresentedURLMap, h, hp]

theorem commentOnGitHub_absent (toolbelt : Toolbelt) (st : PipeState)
    (h : st.presentedURLMap = none) :
    commentOnGitHub toolbelt st = (.ok st, []) := by
  simp [commentOnGitHub, h]

theorem resolveEntries_trace_no_revoke (toolbelt : Toolbelt)
    (entries : List (String × String)) :
    ((resolveEntries toolbelt entries).2).filter isRevoke = [] := by
  induction entries with
  | nil => simp [resolveEntries]
  | cons entry rest ih =>
    cases hw : toolbelt.whereis entry.2 with
    | error e => simp [resolveEntries, hw, isRevoke]
    | ok m => simp [resolveEntries, hw, isRevoke, ih]

theorem getPresentedURLMap_trace_no_revoke (toolbelt : Toolbelt) (st : PipeState) :
    ((getPresentedURLMap toolbelt st).2).filter isRevoke = [] := by
  by_cases hp : toolbelt.stagingPresenter
  · by_cases hs : st.submittedSomething
    · cases hr : (resolveEntries toolbelt st.contentIDMap).1 with
      | error e =>
        have := resolveEntries_trace_no_revoke toolbelt st.contentIDMap
        simp [getPresentedURLMap, hp, hs, hr, this]
      | ok m =>
        have := resolveEntries_trace_no_revoke toolbelt st.contentIDMap
        simp [getPresentedURLMap, hp, hs, hr, this]
    · have hs' : st.submittedSomething = false := by simpa using hs
      simp [getPresentedURLMap, hp, hs']
  · have hp' : toolbelt.stagingPresenter = false := by simpa using hp
    simp [getPresentedURLMap, hp']

theorem commentOnGitHub_trace_no_revoke (toolbelt : Toolbelt) (st : PipeState) :
    ((commentOnGitHub toolbelt st).2).filter isRevoke = [] := by
  cases hm : st.presentedURLMap with
  | none => simp [commentOnGitHub, hm]
  | some m =>
    by_cases hs : st.submittedSomething
    · by_cases hg : toolbelt.github
      · cases hp : parsePullRequestURL toolbelt.pullRequestURL with
        | none => simp [commentOnGitHub, hm, hs, hg, hp]
        | some parsed =>
          cases hpost : toolbelt.postResult with
          | error e => simp [commentOnGitHub, hm, hs, hg, hp, hpost, isRevoke]
          | ok u => simp [commentOnGitHub, hm, hs, hg, hp, hpost, isRevoke]
      · have hg' : toolbelt.github = false := by simpa using hg
        simp [commentOnGitHub, hm, hs, hg']
    · have hs' : st.submittedSomething = false := by simpa using hs
      simp [commentOnGitHub, hm, hs']

theorem notify_stages_trace_no_revoke (toolbelt : Toolbelt) (st : PipeState) :
    ((seriesRun [getPresentedURLMap, commentOnGitHub] toolbelt st).2).filter isRevoke
      = [] := by
  have hgt := getPresentedURLMap_trace_no_revoke toolbelt st
  cases hst : getPresentedURLMap toolbelt st with
  | mk r tr =>
    rw [hst] at hgt
    cases r with
    | error e => simp [seriesRun, hst, hgt]
    | ok st5 =>
      have hct := commentOnGitHub_trace_no_revoke toolbelt st5
      cases hc : commentOnGitHub toolbelt st5 with
      | mk r2 tr2 =>
        rw [hc] at hct
        cases r2 <;>
          simp [seriesRun, hst, hc, List.filter_append, hgt, hct]

theorem isRevoke_gitExec : isRevoke Effect.gitExec = false := rfl

theorem isRevoke_issuedKey (s : String) : isRevoke (Effect.issuedKey s) = false := rfl

theorem isRevoke_revokedKey (s : String) : isRevoke (Effect.revokedKey s) = true := rfl

theorem isRevoke_preparedRoot (s : String) :
    isRevoke (Effect.preparedRoot s) = false := rfl

theorem isNetworkNotify_gitExec : isNetworkNotify Effect.gitExec = false := rfl

theorem isNetworkNotify_issuedKey (s : String) :
    isNetworkNotify (Effect.issuedKey s) = false := rfl

theorem isNetworkNotify_revokedKey (s : String) :
    isNetworkNotify (Effect.revokedKey s) = false := rfl

theorem isNetworkNotify_preparedRoot (s : String) :
    isNetworkNotify (Effect.preparedRoot s) = false := rfl

theorem filter_eq_nil_forall {α : Type} {p : α → Bool} {l : List α}
    (h : l.filter p = []) : ∀ a ∈ l, p a = false := by
  intro a ha
  by_contra hcon
  have hp : p a = true := by simpa using hcon
  have hmem : a ∈ l.filter p := List.mem_filter.mpr ⟨ha, hp⟩
  rw [h] at hmem
  cases hmem

theorem prepTrace_no_revoke (toolbelt : Toolbelt) :
    (prepTrace toolbelt).filter isRevoke = [] := by
  simp only [prepTrace]
  induction markerEvents toolbelt.walkEvents with
  | nil => simp
  | cons ev rest ih => simp [isRevoke, ih]

theorem prepTrace_no_network (toolbelt : Toolbelt) :
    (prepTrace toolbelt).filter isNetworkNotify = [] := by
  simp only [prepTrace]
  induction markerEvents toolbelt.walkEvents with
  | nil => simp
  | cons ev rest ih => simp [isNetworkNotify, ih]

/-- The URL map a fully successful resolution produces: every
`contentIDMap` entry keyed by its root, valued by the presenter's paths
joined against the base URL. -/
def resolvedMapOf (toolbelt : Toolbelt) (entries : List (String × String)) :
    List (String × List String) :=
  entries.map (fun entry =>
    (entry.1,
      (match toolbelt.whereis entry.2 with
       | .ok mappings => mappings
       | .error _ => []).map
        (fun mappingPath =>
          toolbelt.urlJoinWith toolbelt.stagingPresenterURL mappingPath)))

theorem resolveEntries_all_ok (toolbelt : Toolbelt)
    (entries : List (String × String))
    (h : ∀ entry ∈ entries, exceptOk (toolbelt.whereis entry.2) = true) :
    resolveEntries toolbelt entries
      = (.ok (resolvedMapOf toolbelt entries),
          entries.map (fun entry => Effect.whereisQuery entry.2)) := by
  induction entries with
  | nil => simp [resolveEntries, resolvedMapOf]
  | cons entry rest ih =>
    have hhead := h entry (List.mem_cons_self entry rest)
    cases hw : toolbelt.whereis entry.2 with
    | error e => rw [hw] at hhead; simp [exceptOk] at hhead
    | ok mappings =>
      have htail : ∀ e ∈ rest, exceptOk (toolbelt.whereis e.2) = true :=
        fun e he => h e (List.mem_cons_of_mem _ he)
      simp [resolveEntries, hw, ih htail, resolvedMapOf, Except.map]

theorem resolveEntries_err (toolbelt : Toolbelt)
    (entries : List (String × String))
    (h : ∃ entry ∈ entries, exceptOk (toolbelt.whereis entry.2) = false) :
    ∃ msg, (resolveEntries toolbelt entries).1 = .error msg
      ∧ ∃ entry ∈ entries, toolbelt.whereis entry.2 = .error msg := by
  induction entries with
  | nil => simp at h
  | cons entry rest ih =>
    cases hw : toolbelt.whereis entry.2 with
    | error e =>
      exact ⟨e, by simp [resolveEntries, hw],
        entry, List.mem_cons_self entry rest, hw⟩
    | ok mappings =>
      have hrest : ∃ e ∈ rest, exceptOk (toolbelt.whereis e.2) = false := by
        rcases h with ⟨en, hen, hbad⟩
        rcases List.mem_cons.mp hen with heq | htl
        · subst heq; rw [hw] at hbad; simp [exceptOk] at hbad
        · exact ⟨en, htl, hbad⟩
      rcases ih hrest with ⟨msg, hmsg, en, hen, hwe⟩
      refine ⟨msg, ?_, en, List.mem_cons_of_mem _ hen, hwe⟩
      simp [resolveEntries, hw, hmsg, Except.map]

/-- C7: `getPresentedURLMap` succeeds untouched (URL map left absent, no
presenter query) when no presenter is configured or nothing was
submitted; otherwise it queries the presenter once per `contentIDMap`
entry, joining each returned path against the base URL, and any single
failing entry fails the whole stage with that entry's error. -/
theorem presented_url_map_resolution (toolbelt : Toolbelt) (st : PipeState) :
    (toolbelt.stagingPresenter = false →
      getPresentedURLMap toolbelt st = (.ok st, []))
    ∧ (st.submittedSomething = false →
      getPresentedURLMap toolbelt st = (.ok st, []))
    ∧ (toolbelt.stagingPresenter = true → st.submittedSomething = true →
      (∀ entry ∈ st.contentIDMap, exceptOk (toolbelt.whereis entry.2) = true) →
      getPresentedURLMap toolbelt st
        = (.ok { st with
              presentedURLMap := some (resolvedMapOf toolbelt st.contentIDMap) },
            st.contentIDMap.map (fun entry => Effect.whereisQuery entry.2)))
    ∧ (toolbelt.stagingPresenter = true → st.submittedSomething = true →
      (∃ entry ∈ st.contentIDMap, exceptOk (toolbelt.whereis entry.2) = false) →
      ∃ msg, (getPresentedURLMap toolbelt st).1 = .error msg
        ∧ ∃ entry ∈ st.contentIDMap, toolbelt.whereis entry.2 = .error msg) := by
  refine ⟨getPresentedURLMap_no_presenter toolbelt st,
    getPresentedURLMap_not_submitted toolbelt st, ?_, ?_⟩
  · intro hp hs h
    rw [getPresentedURLMap]
    simp only [hp, hs, Bool.not_true, Bool.false_eq_true, if_false]
    rw [resolveEntries_all_ok toolbelt st.contentIDMap h]
  · intro hp hs h
    rcases resolveEntries_err toolbelt st.contentIDMap h with ⟨msg, hmsg, en, hen, hwe⟩
    refine ⟨msg, ?_, en, hen, hwe⟩
    rw [getPresentedURLMap]
    simp only [hp, hs, Bool.not_true, Bool.false_eq_true, if_false]
    cases hr : (resolveEntries toolbelt st.contentIDMap).1 with
    | error e => rw [hr] at hmsg; cases hmsg; simp [hr]
    | ok m => rw [hr] at hmsg; cases hmsg

/-- C6: with a GitHub client, a pull-request URL whose trailing segments
are `owner/repo/pull/42` produces exactly one comment to `owner/repo` for
PR `42` (the posting reply deciding the stage outcome), while a
non-matching `.../commits/abc` URL makes the stage succeed with no
comment. -/
theorem github_comment_strict_url (toolbelt : Toolbelt) (st : PipeState)
    (m : List (String × List String)) (hmap : st.presentedURLMap = some m)
    (hsub : st.submittedSomething = true) (hgh : toolbelt.github = true) :
    (toolbelt.pullRequestURL = "https://host/owner/repo/pull/42" →
      (commentOnGitHub toolbelt st).2 = [Effect.postedComment "owner/repo" "42"]
        ∧ (commentOnGitHub toolbelt st).1 = toolbelt.postResult.map (fun _ => st))
    ∧ (toolbelt.pullRequestURL = "https://host/owner/repo/commits/abc" →
      commentOnGitHub toolbelt st = (.ok st, [])) := by
  constructor
  · intro hurl
    have hparse : parsePullRequestURL toolbelt.pullRequestURL
        = some ("owner/repo", "42") := by
      rw [hurl]; decide
    cases hpost : toolbelt.postResult with
    | error e =>
      simp [commentOnGitHub, hmap, hsub, hgh, hparse, hpost, Except.map]
    | ok u =>
      simp [commentOnGitHub, hmap, hsub, hgh, hparse, hpost, Except.map]
  · intro hurl
    have hparse : parsePullRequestURL toolbelt.pullRequestURL = none := by
      rw [hurl]; decide
    simp [commentOnGitHub, hmap, hsub, hgh, hparse]

/-- C5: a truthy mocked SHA short-circuits `generateRevisionID` to
`build-<mock>` with no subprocess; without a mock, git runs once, its
stdout loses the trailing newline and gains the `build-` prefix; a git
error becomes the whole pipeline's error. -/
theorem revision_id_generation (toolbelt : Toolbelt) (st : PipeState) :
    (truthyStr toolbelt.mockGitSHA = true →
      generateRevisionID toolbelt st
        = (.ok { st with revisionID := "build-" ++ toolbelt.mockGitSHA.getD "" },
            []))
    ∧ (∀ stdout, truthyStr toolbelt.mockGitSHA = false →
      toolbelt.gitResult = .ok stdout →
      generateRevisionID toolbelt st
        = (.ok { st with revisionID := "build-" ++ stripTrailingNewline stdout },
            [.gitExec]))
    ∧ (∀ e, truthyStr toolbelt.mockGitSHA = false →
      toolbelt.gitResult = .error e →
      generateRevisionID toolbelt st = (.error e, [.gitExec])
        ∧ (preparePullRequest toolbelt).1 = .error e) := by
  refine ⟨generateRevisionID_mock toolbelt st,
    fun stdout h hg => generateRevisionID_git_ok toolbelt st stdout h hg,
    fun e h hg => ⟨generateRevisionID_git_err toolbelt st e h hg, ?_⟩⟩
  simp only [preparePullRequest]
  rw [seriesRun_cons_err _ _ _ _ _ _
    (generateRevisionID_git_err toolbelt initialPipeState e h hg)]
  simp [Except.map]

/-- A fully local, fully successful configuration: truthy mocked SHA, one
content root, successful preparer, no staging presenter, no GitHub
account. -/
def baseToolbelt : Toolbelt :=
  { mockGitSHA := some "abc123"
    gitResult := .ok "abcdef1234\n"
    stagingContentServiceURL := "https://content"
    issueKeyResult := .ok "KEY"
    revokeResult := .ok ()
    stagingPresenter := false
    stagingPresenterURL := "https://staging"
    whereis := fun _ => .ok ["/alpha"]
    urlJoinWith := fun a b => a ++ b
    github := false
    pullRequestURL := "https://host/owner/repo/pull/42"
    postResult := .ok ()
    rel := fun r => r
    preparer := fun _ =>
      .ok { success := true, didSomething := true, contentIDBase := "cid" }
    walkEvents := [("docs", ["_deconst.json"])] }

/-- Like `baseToolbelt` but the single root's preparation errors. -/
def prepFailToolbelt : Toolbelt :=
  { baseToolbelt with
      preparer := fun _ => .err "boom"
      walkEvents := [("bad", ["_deconst.json"])] }

/-- Like `baseToolbelt` but without a mocked SHA, so git runs. -/
def gitToolbelt : Toolbelt := { baseToolbelt with mockGitSHA := none }

/-- Like `gitToolbelt` but the git subprocess errors. -/
def gitFailToolbelt : Toolbelt :=
  { baseToolbelt with mockGitSHA := none, gitResult := .error "git failed" }

/-- Like `baseToolbelt` but with a GitHub account configured. -/
def githubToolbelt : Toolbelt := { baseToolbelt with github := true }

/-- Like `baseToolbelt` but with a staging presenter configured. -/
def presenterToolbelt : Toolbelt := { baseToolbelt with stagingPresenter := true }

/-- A pipeline state as it stands entering the notify phase of a
successful staged run. -/
def notifyState : PipeState :=
  { initialPipeState with
      presentedURLMap := some [("docs", ["https://staging/alpha"])]
      submittedSomething := true }

/-- A pipeline state after submitting one root. -/
def submittedState : PipeState :=
  { initialPipeState with
      submittedSomething := true
      contentIDMap := [("docs", "cid")] }

/-- C1 (amended): once the revision stage and the key issuance succeed,
the transient key is revoked exactly once iff the preparation stage
succeeds; when preparation fails, `async.series` stops at its error
before `revokeTransientKey`, so the issued key is never revoked. -/
theorem revoke_iff_preparation_succeeds (toolbelt : Toolbelt) (k : String)
    (h1 : revisionStageOk toolbelt = true)
    (h2 : toolbelt.issueKeyResult = .ok k) :
    (preparePullRequest toolbelt).2.filter isRevoke
      = (if preparationOk toolbelt = true then [Effect.revokedKey k] else []) := by
  obtain ⟨r, tr1, hgen, htrR, _⟩ :=
    generateRevisionID_ok_shape toolbelt initialPipeState h1
  have hissue := issueTransientKey_ok toolbelt
    { initialPipeState with revisionID := r } k h2
  simp only [preparePullRequest]
  rw [seriesRun_cons_ok _ _ _ _ _ _ hgen, seriesRun_cons_ok _ _ _ _ _ _ hissue]
  by_cases hprep : preparationOk toolbelt = true
  · have hinv := invokePreparer_ok toolbelt
      { { initialPipeState with revisionID := r } with transientKey := k } hprep
    rw [seriesRun_cons_ok _ _ _ _ _ _ hinv]
    cases hrev : toolbelt.revokeResult with
    | error e =>
      rw [seriesRun_cons_err _ _ _ _ _ _ (revokeTransientKey_err toolbelt _ e hrev)]
      simp [List.filter_append, htrR, hprep, isRevoke_gitExec, isRevoke_issuedKey,
        isRevoke_revokedKey, isRevoke_preparedRoot, filter_eq_nil_forall htrR,
        prepTrace_no_revoke, filter_eq_nil_forall (prepTrace_no_revoke toolbelt)]
    | ok u =>
      cases u
      rw [seriesRun_cons_ok _ _ _ _ _ _ (revokeTransientKey_ok toolbelt _ hrev)]
      simp [List.filter_append, htrR, hprep, isRevoke_gitExec, isRevoke_issuedKey,
        isRevoke_revokedKey, isRevoke_preparedRoot, filter_eq_nil_forall htrR,
        prepTrace_no_revoke, filter_eq_nil_forall (prepTrace_no_revoke toolbelt),
        notify_stages_trace_no_revoke]
  · have hprep' : preparationOk toolbelt = false := by simpa using hprep
    rw [seriesRun_cons_err _ _ _ _ _ _ (invokePreparer_err toolbelt _ hprep')]
    simp [List.filter_append, htrR, hprep', isRevoke_gitExec, isRevoke_issuedKey,
      isRevoke_revokedKey, isRevoke_preparedRoot, filter_eq_nil_forall htrR,
      prepTrace_no_revoke, filter_eq_nil_forall (prepTrace_no_revoke toolbelt)]

/-- C8: with no staging presenter, the notify phase performs no presenter
query and posts no comment, and an otherwise successful run that prepared
content still ends with `{ didSomething: true }`. -/
theorem no_presenter_fully_local_success (toolbelt : Toolbelt) (k : String)
    (hp : toolbelt.stagingPresenter = false)
    (h1 : revisionStageOk toolbelt = true)
    (h2 : toolbelt.issueKeyResult = .ok k)
    (h3 : preparationOk toolbelt = true)
    (h4 : toolbelt.revokeResult = .ok ())
    (h5 : toolbelt.walkEvents.any (fun ev => hasMarker ev.2) = true) :
    (preparePullRequest toolbelt).1 = .ok { didSomething := true }
    ∧ (preparePullRequest toolbelt).2.filter isNetworkNotify = [] := by
  obtain ⟨r, tr1, hgen, _, htrN⟩ :=
    generateRevisionID_ok_shape toolbelt initialPipeState h1
  have hissue := issueTransientKey_ok toolbelt
    { initialPipeState with revisionID := r } k h2
  have hinv := invokePreparer_ok toolbelt
    { { initialPipeState with revisionID := r } with transientKey := k } h3
  have hrevoke := revokeTransientKey_ok toolbelt
    { { { initialPipeState with revisionID := r } with transientKey := k } with
        submittedSomething := (aggregateOf toolbelt).submittedSomething
        didSomething := (aggregateOf toolbelt).didSomething
        contentIDMap := (aggregateOf toolbelt).contentIDMap } h4
  have hpres := getPresentedURLMap_no_presenter toolbelt
    { { { initialPipeState with revisionID := r } with transientKey := k } with
        submittedSomething := (aggregateOf toolbelt).submittedSomething
        didSomething := (aggregateOf toolbelt).didSomething
        contentIDMap := (aggregateOf toolbelt).contentIDMap } hp
  have hcomm := commentOnGitHub_absent toolbelt
    { { { initialPipeState with revisionID := r } with transientKey := k } with
        submittedSomething := (aggregateOf toolbelt).submittedSomething
        didSomething := (aggregateOf toolbelt).didSomething
        contentIDMap := (aggregateOf toolbelt).contentIDMap } rfl
  constructor
  · simp only [preparePullRequest]
    rw [seriesRun_cons_ok _ _ _ _ _ _ hgen, seriesRun_cons_ok _ _ _ _ _ _ hissue,
      seriesRun_cons_ok _ _ _ _ _ _ hinv, seriesRun_cons_ok _ _ _ _ _ _ hrevoke,
      seriesRun_cons_ok _ _ _ _ _ _ hpres, seriesRun_cons_ok _ _ _ _ _ _ hcomm]
    simp [seriesRun, Except.map, aggregateOf, h5]
  · simp only [preparePullRequest]
    rw [seriesRun_cons_ok _ _ _ _ _ _ hgen, seriesRun_cons_ok _ _ _ _ _ _ hissue,
      seriesRun_cons_ok _ _ _ _ _ _ hinv, seriesRun_cons_ok _ _ _ _ _ _ hrevoke,
      seriesRun_cons_ok _ _ _ _ _ _ hpres, seriesRun_cons_ok _ _ _ _ _ _ hcomm]
    simp [seriesRun, List.filter_append, htrN, isNetworkNotify_gitExec,
      isNetworkNotify_issuedKey, isNetworkNotify_revokedKey,
      isNetworkNotify_preparedRoot, filter_eq_nil_forall htrN,
      prepTrace_no_network, filter_eq_nil_forall (prepTrace_no_network toolbelt)]

/-- C1, claim as stated, refuted: with a successfully issued key and a
failing preparer, the pipeline ends in the preparation error and the
number of `revokeAPIKey` invocations is zero, not one — `async.series`
never reaches `revokeTransientKey`. -/
theorem revoke_skipped_when_preparation_fails :
    prepFailToolbelt.issueKeyResult = .ok "KEY"
    ∧ (preparePullRequest prepFailToolbelt).1
        = .error "At least one preparer terminated unsuccessfully."
    ∧ (preparePullRequest prepFailToolbelt).2.filter isRevoke = [] := by
  refine ⟨rfl, ?_, ?_⟩ <;> rfl

/-- Concrete witness for `revoke_iff_preparation_succeeds`: the fully
successful run revokes the issued key exactly once. -/
theorem revoke_iff_preparation_succeeds_witness :
    (revisionStageOk baseToolbelt = true
      ∧ baseToolbelt.issueKeyResult = .ok "KEY")
    ∧ (preparePullRequest baseToolbelt).2.filter isRevoke
        = (if preparationOk baseToolbelt = true then [Effect.revokedKey "KEY"]
           else []) :=
  ⟨⟨by decide, rfl⟩,
    revoke_iff_preparation_succeeds baseToolbelt "KEY" (by decide) rfl⟩

/-- Concrete witness for `no_presenter_fully_local_success`: the fully
local run ends `{ didSomething := true }` with no notify network I/O. -/
theorem no_presenter_fully_local_success_witness :
    (baseToolbelt.stagingPresenter = false
      ∧ revisionStageOk baseToolbelt = true
      ∧ baseToolbelt.issueKeyResult = .ok "KEY"
      ∧ preparationOk baseToolbelt = true
      ∧ baseToolbelt.revokeResult = .ok ()
      ∧ baseToolbelt.walkEvents.any (fun ev => hasMarker ev.2) = true)
    ∧ (preparePullRequest baseToolbelt).1 = .ok { didSomething := true }
    ∧ (preparePullRequest baseToolbelt).2.filter isNetworkNotify = [] := by
  have h := no_presenter_fully_local_success baseToolbelt "KEY" rfl (by decide)
    rfl (by decide) rfl (by decide)
  exact ⟨⟨rfl, by decide, rfl, by decide, rfl, by decide⟩, h.1, h.2⟩

/-- Concrete witness for `revision_id_generation`: mock `abc123` yields
`build-abc123` with no subprocess; git stdout `abcdef1234\n` yields
`build-abcdef1234`; a git error fails the pipeline. -/
theorem revision_id_generation_witness :
    (truthyStr baseToolbelt.mockGitSHA = true
      ∧ generateRevisionID baseToolbelt initialPipeState
          = (.ok { initialPipeState with
              revisionID := "build-" ++ baseToolbelt.mockGitSHA.getD "" }, [])
      ∧ "build-" ++ baseToolbelt.mockGitSHA.getD "" = "build-abc123")
    ∧ (truthyStr gitToolbelt.mockGitSHA = false
      ∧ gitToolbelt.gitResult = .ok "abcdef1234\n"
      ∧ generateRevisionID gitToolbelt initialPipeState
          = (.ok { initialPipeState with
              revisionID := "build-" ++ stripTrailingNewline "abcdef1234\n" },
              [.gitExec])
      ∧ "build-" ++ stripTrailingNewline "abcdef1234\n" = "build-abcdef1234")
    ∧ (truthyStr gitFailToolbelt.mockGitSHA = false
      ∧ gitFailToolbelt.gitResult = .error "git failed"
      ∧ generateRevisionID gitFailToolbelt initialPipeState
          = (.error "git failed", [.gitExec])
      ∧ (preparePullRequest gitFailToolbelt).1 = .error "git failed") := by
  have h3 := (revision_id_generation gitFailToolbelt initialPipeState).2.2
    "git failed" (by decide) rfl
  exact ⟨⟨by decide,
      (revision_id_generation baseToolbelt initialPipeState).1 (by decide),
      by decide⟩,
    ⟨by decide, rfl,
      (revision_id_generation gitToolbelt initialPipeState).2.1
        "abcdef1234\n" (by decide) rfl,
      by decide⟩,
    ⟨by decide, rfl, h3.1, h3.2⟩⟩

/-- Concrete witness for `github_comment_strict_url`: the matching URL
posts one comment to `owner/repo` for PR `42`; the `commits` URL is
skipped without failing. -/
theorem github_comment_strict_url_witness :
    (notifyState.presentedURLMap = some [("docs", ["https://staging/alpha"])]
      ∧ notifyState.submittedSomething = true
      ∧ githubToolbelt.github = true
      ∧ githubToolbelt.pullRequestURL = "https://host/owner/repo/pull/42")
    ∧ (commentOnGitHub githubToolbelt notifyState).2
        = [Effect.postedComment "owner/repo" "42"]
    ∧ (commentOnGitHub githubToolbelt notifyState).1
        = githubToolbelt.postResult.map (fun _ => notifyState)
    ∧ commentOnGitHub
        { githubToolbelt with
            pullRequestURL := "https://host/owner/repo/commits/abc" }
        notifyState
        = (.ok notifyState, []) :=
  ⟨⟨rfl, rfl, rfl, rfl⟩,
    ((github_comment_strict_url githubToolbelt notifyState _ rfl rfl rfl).1 rfl).1,
    ((github_comment_strict_url githubToolbelt notifyState _ rfl rfl rfl).1 rfl).2,
    (github_comment_strict_url
      { githubToolbelt with
          pullRequestURL := "https://host/owner/repo/commits/abc" }
      notifyState _ rfl rfl rfl).2 rfl⟩

/-- Concrete witness for `presented_url_map_resolution`: with no presenter
the stage is a successful no-op; with a presenter and one submitted root,
exactly one query resolves `docs` to the joined URL. -/
theorem presented_url_map_resolution_witness :
    (baseToolbelt.stagingPresenter = false
      ∧ getPresentedURLMap baseToolbelt submittedState = (.ok submittedState, []))
    ∧ (presenterToolbelt.stagingPresenter = true
      ∧ submittedState.submittedSomething = true
      ∧ (∀ entry ∈ submittedState.contentIDMap,
          exceptOk (presenterToolbelt.whereis entry.2) = true)
      ∧ getPresentedURLMap presenterToolbelt submittedState
          = (.ok { submittedState with
              presentedURLMap :=
                some (resolvedMapOf presenterToolbelt submittedState.contentIDMap) },
              submittedState.contentIDMap.map
                (fun entry => Effect.whereisQuery entry.2))
      ∧ resolvedMapOf presenterToolbelt submittedState.contentIDMap
          = [("docs", ["https://staging/alpha"])]) :=
  ⟨⟨rfl, (presented_url_map_resolution baseToolbelt submittedState).1 rfl⟩,
    ⟨rfl, rfl, by decide,
      (presented_url_map_resolution presenterToolbelt submittedState).2.2.1
        rfl rfl (by decide),
      by decide⟩⟩

/-- Concrete witness for `excluded_directories_never_visited`: a `.git`
directory holding a `_deconst.json` marker below the workspace root is not
in the visit sequence. -/
theorem excluded_directories_never_visited_witness :
    ((["ws", ".git"] : List String).getLast? = some ".git"
      ∧ isExcluded ".git" = true
      ∧ (["ws", ".git"] : List String) ≠ [] ++ ["ws"])
    ∧ ((["ws", ".git"], ["_deconst.json"])
        ∉ walkTree []
          (.node "ws" []
            [.node ".git" ["_deconst.json"] [], .node "docs" ["_deconst.json"] []])) :=
  ⟨⟨by decide, by decide, by decide⟩,
    excluded_directories_never_visited []
      (.node "ws" []
        [.node ".git" ["_deconst.json"] [], .node "docs" ["_deconst.json"] []])
      ["ws", ".git"] ["_deconst.json"] ".git" (by decide) (by decide) (by decide)⟩

end StriderDeconst
